import Mathlib

/-!
Verification development for the caracara pagination engine and IOC module.

The first part embeds the error-handling wrapper of
`src/caracara/modules/ioc/ioc.py` (`instr` / `handle_errors`) and the `IOC`
data class of `src/caracara/modules/ioc/indicator.py`.  The second part embeds
the pagination engine (`caracara/common/pagination.py`, modelled from the
specification, since only its tests and callers are available) together with
the mock fetch functions of `src/tests/unit_tests/test_pagination.py`.
-/

set_option maxRecDepth 4000

namespace Caracara

/-! ### Resources and response envelopes of the IOC module -/

/-- A single entry of the `resources` list of a FalconPy response body.
Entries are either opaque resource units (`item`) or dictionaries; the code
only inspects the `message_type`, `field_name` and `message` keys of a
dictionary entry, so those are the fields we keep (each is `Option` because
`dict.get` may return `None`). -/
inductive Resource where
  | item (v : Nat)
  | dict (messageType fieldName message : Option String)
deriving DecidableEq

/-- The part of a FalconPy response inspected by `instr`/`handle_errors` in
`src/caracara/modules/ioc/ioc.py`: `response["body"]["resources"]` and
`response["body"].get("errors", [])` (the field may be absent or `None`,
both collapse to `[]` via `or []`). -/
structure Response where
  resources : List Resource
  errors : Option (List String)
deriving DecidableEq

/-- Python `str` applied to an `Option String`: `None` prints as `"None"`
inside an f-string. -/
def pyStr : Option String → String
  | some s => s
  | none => "None"

/-- The error string built by `handle_errors` for an "error"-tagged resource:
`f"field_name: {resource.get('field_name')}, error: {resource.get('message')}"`. -/
def errorDescriptor (fieldName message : Option String) : String :=
  "field_name: " ++ pyStr fieldName ++ ", error: " ++ pyStr message

/-- The promotion step of `handle_errors` for one resource: a dictionary with
`message_type == "error"` yields an error descriptor, anything else yields
nothing. -/
def resourceErrorDescr : Resource → Option String
  | .dict mt fn msg => if mt = some "error" then some (errorDescriptor fn msg) else none
  | .item _ => none

/-- The test `isinstance(resource, dict) and resource.get("message_type") == "error"`. -/
def isErrorTagged : Resource → Bool
  | .dict mt _ _ => mt = some "error"
  | .item _ => false

/-- All error descriptors promoted out of a `resources` list by the loop in
`handle_errors` (in resource order). -/
def promotedErrors (rs : List Resource) : List String :=
  rs.filterMap resourceErrorDescr

/-- The message of a "warning"-tagged resource, as passed to
`logger.warning(resource.get("message"))`; anything else is not logged. -/
def resourceWarningMsg : Resource → Option (Option String)
  | .dict mt _ msg => if mt = some "warning" then some msg else none
  | .item _ => none

/-- The sequence of messages `handle_errors` hands to `logger.warning`
while scanning a `resources` list. -/
def loggedWarnings (rs : List Resource) : List (Option String) :=
  rs.filterMap resourceWarningMsg

/-- The body of the closure returned by `instr` in
`src/caracara/modules/ioc/ioc.py`: collect the top-level `errors` field
(absent/`None` collapses to `[]`), append one descriptor per "error"-tagged
resource, and either return the response unchanged (no errors) or raise
`ValueError(errors)` — modelled as `Except.error`. -/
def handle_errors (resp : Response) : Except (List String) Response :=
  let errs := resp.errors.getD [] ++ promotedErrors resp.resources
  if errs = [] then .ok resp else .error errs

/-- The closure factory `instr(func, logger)`: wrap a raw FalconPy call so that its response is
routed through `handle_errors`.  The logger side effect is modelled separately
by `loggedWarnings`. -/
def instr {κ : Type} (func : κ → Response) : κ → Except (List String) Response :=
  fun args => handle_errors (func args)

theorem promotedErrors_eq_nil {rs : List Resource}
    (h : ∀ r ∈ rs, isErrorTagged r = false) :
    promotedErrors rs = [] := by
  rw [promotedErrors, List.filterMap_eq_nil_iff]
  intro r hr
  have htag := h r hr
  match r with
  | .item v => rfl
  | .dict mt fn msg =>
      rw [resourceErrorDescr, if_neg]
      intro hmt
      rw [isErrorTagged, hmt] at htag
      simp at htag

/-- C9: if the top-level `errors` field is empty or absent and no resource is
an "error"-tagged dictionary, the instrumenting wrapper returns exactly the
response produced by the wrapped function, unchanged. -/
theorem instr_clean_response_passthrough {κ : Type} (func : κ → Response) (args : κ)
    (herr : (func args).errors.getD [] = [])
    (hres : ∀ r ∈ (func args).resources, isErrorTagged r = false) :
    instr func args = .ok (func args) := by
  rw [instr, handle_errors]
  rw [promotedErrors_eq_nil hres, herr]
  rfl

/-- Witness for C9 at a concrete response containing an opaque resource and a
warning-tagged dictionary, with the `errors` field absent. -/
theorem instr_clean_response_passthrough_witness :
    instr (fun _ : Unit =>
        Response.mk [Resource.item 7, Resource.dict (some "warning") none (some "w")] none) ()
      = .ok (Response.mk [Resource.item 7, Resource.dict (some "warning") none (some "w")] none) :=
  instr_clean_response_passthrough _ () (by decide) (by decide)

/-- C4: an "error"-tagged resource is promoted into the error aggregate as a
`field_name`/`message` descriptor and the wrapped call raises a failure
carrying that aggregate instead of returning the response. -/
theorem instr_error_tagged_resource_raises {κ : Type} (func : κ → Response) (args : κ)
    (fn msg : Option String)
    (hmem : Resource.dict (some "error") fn msg ∈ (func args).resources) :
    instr func args
        = .error ((func args).errors.getD [] ++ promotedErrors (func args).resources)
      ∧ errorDescriptor fn msg ∈ promotedErrors (func args).resources := by
  have hdesc : errorDescriptor fn msg ∈ promotedErrors (func args).resources := by
    rw [promotedErrors, List.mem_filterMap]
    exact ⟨Resource.dict (some "error") fn msg, hmem, by rw [resourceErrorDescr, if_pos rfl]⟩
  refine ⟨?_, hdesc⟩
  rw [instr, handle_errors]
  rw [if_neg]
  intro hnil
  exact List.ne_nil_of_mem (List.mem_append_right _ hdesc) hnil

/-- Witness for C4 at a concrete response carrying one error-tagged resource. -/
theorem instr_error_tagged_resource_raises_witness :
    instr (fun _ : Unit =>
        Response.mk [Resource.dict (some "error") (some "value") (some "bad value")] (some []))
        ()
        = .error ["field_name: value, error: bad value"]
      ∧ "field_name: value, error: bad value"
          ∈ promotedErrors [Resource.dict (some "error") (some "value") (some "bad value")] :=
  instr_error_tagged_resource_raises _ () (some "value") (some "bad value") (by decide)

/-- A concrete response whose only resource is a warning-tagged dictionary. -/
def warnResp : Response :=
  Response.mk [Resource.dict (some "warning") none (some "near-duplicate")] none

/-- C5 counterexample: the wrapper obtained from `instr` ignores the
caller-provided `ignore_warnings` flag entirely — with the flag set to `false`
(which, per the specification, should escalate embedded warnings to a
failure), a response containing a warning-tagged resource is still returned
unchanged and the call succeeds; the warning is merely logged. -/
theorem instr_warning_flag_counterexample :
    instr (fun (_escalate : Bool) => warnResp) false = .ok warnResp
      ∧ (∃ fn msg, Resource.dict (some "warning") fn msg ∈ warnResp.resources)
      ∧ loggedWarnings warnResp.resources = [some "near-duplicate"] := by
  refine ⟨?_, ⟨none, some "near-duplicate", by decide⟩, by decide⟩
  rfl

/-- C5 amended: embedded warnings are logged and are never fatal — the call
succeeds and returns the response unchanged no matter which value the caller
passes for the flag, because `handle_errors` never reads it. -/
theorem instr_warnings_logged_never_fatal {κ : Type} (func : κ → Response) (args : κ)
    (herr : (func args).errors.getD [] = [])
    (hnoerr : ∀ r ∈ (func args).resources, isErrorTagged r = false)
    (fn msg : Option String)
    (hwarn : Resource.dict (some "warning") fn msg ∈ (func args).resources) :
    instr func args = .ok (func args)
      ∧ msg ∈ loggedWarnings (func args).resources := by
  constructor
  · rw [instr, handle_errors]
    rw [promotedErrors_eq_nil hnoerr, herr]
    rfl
  · rw [loggedWarnings, List.mem_filterMap]
    exact ⟨Resource.dict (some "warning") fn msg, hwarn, by rw [resourceWarningMsg, if_pos rfl]⟩

/-- Witness for the amended C5 statement: a call whose synthetic argument is
the warning-escalation flag, at both flag values. -/
theorem instr_warnings_logged_never_fatal_witness :
    (instr (fun (_escalate : Bool) => warnResp) true = .ok warnResp
        ∧ some "near-duplicate" ∈ loggedWarnings warnResp.resources)
      ∧ (instr (fun (_escalate : Bool) => warnResp) false = .ok warnResp
        ∧ some "near-duplicate" ∈ loggedWarnings warnResp.resources) :=
  ⟨instr_warnings_logged_never_fatal _ true (by decide) (by decide) none
      (some "near-duplicate") (by decide),
    instr_warnings_logged_never_fatal _ false (by decide) (by decide) none
      (some "near-duplicate") (by decide)⟩

/-! ### The `IOC` data class of `src/caracara/modules/ioc/indicator.py` -/

/-- A Python value as it appears inside the dictionary returned by
`IOC.dump()`. -/
inductive PyVal where
  | pyNone
  | str (s : String)
  | bool (b : Bool)
  | strList (l : List String)
  | dictVal (d : List (String × PyVal))

/-- Python `None`-or-string, rendered as a `PyVal`. -/
def optStrVal : Option String → PyVal
  | some s => .str s
  | none => .pyNone

/-- Python `None`-or-bool, rendered as a `PyVal`. -/
def optBoolVal : Option Bool → PyVal
  | some b => .bool b
  | none => .pyNone

/-- Python `None`-or-list-of-strings, rendered as a `PyVal`. -/
def optStrListVal : Option (List String) → PyVal
  | some l => .strList l
  | none => .pyNone

/-- The `IOC` class of `src/caracara/modules/ioc/indicator.py`, with one field
per attribute assigned by `__init__`/`from_data_dict`.  Fields that can hold
`None` are `Option`s. -/
structure IOC where
  id : Option String
  type : Option String
  value : Option String
  action : Option String
  mobile_action : Option String
  severity : Option String
  host_groups : Option (List String)
  metadata : List (String × PyVal)
  platforms : List String
  tags : List String
  expiration : Option String
  expired : Option Bool
  deleted : Option Bool
  description : Option String
  applied_globally : Option Bool
  from_parent : Option Bool
  parent_cid_name : Option String
  created_on : Option String
  created_by : Option String
  modified_on : Option String
  modified_by : Option String
  source : Option String

/-- Method `IOC.exists_in_cloud`: `self.id is not None`. -/
def IOC.exists_in_cloud (ioc : IOC) : Bool :=
  ioc.id.isSome

/-- Method `IOC.dump`: for an IOC that exists in the cloud, a dictionary of all
fields; otherwise the `else` branch builds `res = {}`, reads each field of the
key list into a local variable without storing it (the assignment into `res`
is commented out in the source), and returns `res` — the empty dictionary. -/
def IOC.dump (ioc : IOC) : List (String × PyVal) :=
  if ioc.exists_in_cloud then
    [("id", optStrVal ioc.id),
     ("type", optStrVal ioc.type),
     ("value", optStrVal ioc.value),
     ("action", optStrVal ioc.action),
     ("mobile_action", optStrVal ioc.mobile_action),
     ("severity", optStrVal ioc.severity),
     ("host_groups", optStrListVal ioc.host_groups),
     ("metadata", PyVal.dictVal ioc.metadata),
     ("platforms", PyVal.strList ioc.platforms),
     ("tags", PyVal.strList ioc.tags),
     ("expiration", optStrVal ioc.expiration),
     ("expired", optBoolVal ioc.expired),
     ("deleted", optBoolVal ioc.deleted),
     ("description", optStrVal ioc.description),
     ("applied_globally", optBoolVal ioc.applied_globally),
     ("from_parent", optBoolVal ioc.from_parent),
     ("parent_cid_name", optStrVal ioc.parent_cid_name),
     ("created_on", optStrVal ioc.created_on),
     ("created_by", optStrVal ioc.created_by),
     ("modified_on", optStrVal ioc.modified_on),
     ("modified_by", optStrVal ioc.modified_by),
     ("source", optStrVal ioc.source)]
  else
    []

/-- C10: an IOC whose `id` is `None` (one that does not yet exist in the
cloud) dumps to an empty dictionary, containing none of its field values. -/
theorem ioc_dump_empty_of_no_id (ioc : IOC) (h : ioc.id = none) :
    ioc.dump = [] := by
  rw [IOC.dump, if_neg]
  rw [IOC.exists_in_cloud, h]
  simp

/-- A concrete not-yet-clouded IOC (mirroring the fields set by `__init__`
for a fresh domain indicator). -/
def freshIoc : IOC :=
  { id := none
    type := some "domain"
    value := some "example.local"
    action := some "detect"
    mobile_action := none
    severity := some "informational"
    host_groups := none
    metadata := []
    platforms := ["windows"]
    tags := []
    expiration := none
    expired := none
    deleted := none
    description := some "unit testing mock"
    applied_globally := some false
    from_parent := none
    parent_cid_name := none
    created_on := none
    created_by := none
    modified_on := none
    modified_by := none
    source := none }

/-- Witness for C10 at a concrete IOC with `id = None`. -/
theorem ioc_dump_empty_of_no_id_witness : freshIoc.dump = [] :=
  ioc_dump_empty_of_no_id freshIoc rfl

/-! ### The pagination engine

`caracara/common/pagination.py` itself is not part of the available sources
(only its unit tests and its callers are), so the four algorithms below are
modelled from the specification, §4.1–§4.4, and checked against the mock fetch
functions and assertions of `src/tests/unit_tests/test_pagination.py`. -/

/-- The response envelope of a numbered-offset fetch function: `resources`,
top-level `errors`, and pagination metadata `offset` (the next offset, absent
on end-of-stream) and `total`. -/
structure NumEnvelope (α : Type) where
  resources : List α
  errors : List String
  offset : Option Nat
  total : Nat

/-- Modelled from the spec: the loop of `all_pages_numbered_offset` (§4.1).
Start at an offset, repeatedly fetch `(offset, limit)`, append `resources`,
and move to the offset reported in the envelope.  Terminate when the envelope
reports no further offset, or when the resources collected so far reach the
reported `total`.  An envelope carrying `errors` aborts the whole call with a
`RemoteQueryError` (modelled as `Except.error`) holding the error list.  The
`fuel` argument bounds the iteration count; `none` marks fuel exhaustion. -/
def all_pages_numbered_offsetAux {α : Type} (fetch : Nat → Nat → NumEnvelope α)
    (limit : Nat) : Nat → Nat → List α → Option (Except (List String) (List α))
  | 0, _, _ => none
  | fuel + 1, off, acc =>
    let env := fetch off limit
    if env.errors ≠ [] then some (.error env.errors)
    else
      let acc2 := acc ++ env.resources
      match env.offset with
      | none => some (.ok acc2)
      | some next =>
        if env.total ≤ acc2.length then some (.ok acc2)
        else all_pages_numbered_offsetAux fetch limit fuel next acc2

/-- Modelled from the spec: `all_pages_numbered_offset` (§4.1), starting at
offset 0 with an empty aggregate. -/
def all_pages_numbered_offset {α : Type} (fetch : Nat → Nat → NumEnvelope α)
    (limit fuel : Nat) : Option (Except (List String) (List α)) :=
  all_pages_numbered_offsetAux fetch limit fuel 0 []

/-- Number of pages needed for `total` resources at page size `limit`
(the ceiling of `total / limit`). -/
def numPages (limit total : Nat) : Nat :=
  (total + limit - 1) / limit

/-- Modelled from the spec: the fan-out offsets `limit, 2*limit, … < total`
submitted to the worker pool by the parallel pager (§4.2). -/
def fanOutOffsets (limit total : Nat) : List Nat :=
  (List.range (numPages limit total - 1)).map (fun k => (k + 1) * limit)

/-- Modelled from the spec: `all_pages_numbered_offset_parallel` (§4.2, §9).
Probe once at offset 0 for the first page and the authoritative `total`; on a
zero total return the probe page immediately.  Otherwise submit one fetch per
fan-out offset to the worker pool; `completionOrder` is the order in which the
pool happens to finish the tasks (any permutation of the offsets under real
scheduling).  Results land in an indexed buffer keyed by offset and are read
back in ascending offset order after all tasks settle; if any envelope carried
errors the whole call fails once with every collected error. -/
def all_pages_numbered_offset_parallel {α : Type} (fetch : Nat → Nat → NumEnvelope α)
    (limit : Nat) (completionOrder : List Nat) : Except (List String) (List α) :=
  let probe := fetch 0 limit
  if probe.errors ≠ [] then .error probe.errors
  else if probe.total = 0 then .ok probe.resources
  else
    let buffer := completionOrder.map (fun off => (off, fetch off limit))
    let ordered := (fanOutOffsets limit probe.total).filterMap (fun off => buffer.lookup off)
    let fanErrors := (ordered.map NumEnvelope.errors).flatten
    if fanErrors ≠ [] then .error fanErrors
    else .ok (probe.resources ++ (ordered.map NumEnvelope.resources).flatten)

/-- The response envelope of a token/cursor fetch function.  The remote
protocol stores the next cursor under a field named either `offset` or
`after`; the envelope carries both slots and the pager reads the one selected
by its `offset_key_named_after` flag. -/
structure TokEnvelope (α : Type) where
  resources : List α
  errors : List String
  offsetField : Option String
  afterField : Option String
  total : Nat

/-- The cursor of an envelope under the selected wire dialect. -/
def cursorOf {α : Type} (offsetKeyNamedAfter : Bool) (env : TokEnvelope α) : Option String :=
  if offsetKeyNamedAfter then env.afterField else env.offsetField

/-- Modelled from the spec: the loop of `all_pages_token_offset` (§4.3).
Start with an absent cursor, repeatedly fetch `(cursor, limit)`, append
`resources`, and read the next cursor from the envelope under the selected
field name.  Terminate when the returned cursor is empty or absent.  Errors
abort the whole call as in §4.1. -/
def all_pages_token_offsetAux {α : Type} (fetch : Option String → Nat → TokEnvelope α)
    (limit : Nat) (offsetKeyNamedAfter : Bool) :
    Nat → Option String → List α → Option (Except (List String) (List α))
  | 0, _, _ => none
  | fuel + 1, cur, acc =>
    let env := fetch cur limit
    if env.errors ≠ [] then some (.error env.errors)
    else
      let acc2 := acc ++ env.resources
      match cursorOf offsetKeyNamedAfter env with
      | none => some (.ok acc2)
      | some c =>
        if c = "" then some (.ok acc2)
        else all_pages_token_offsetAux fetch limit offsetKeyNamedAfter fuel (some c) acc2

/-- Modelled from the spec: `all_pages_token_offset` (§4.3), starting from an
absent cursor with an empty aggregate. -/
def all_pages_token_offset {α : Type} (fetch : Option String → Nat → TokEnvelope α)
    (limit : Nat) (offsetKeyNamedAfter : Bool) (fuel : Nat) :
    Option (Except (List String) (List α)) :=
  all_pages_token_offsetAux fetch limit offsetKeyNamedAfter fuel none []

/-- Modelled from the spec: `generic_parallel_list_execution` (§4.4, §9).
One task per `(position, value)` pair; `completionOrder` is the order in which
the pool finishes the tasks (a permutation of `valueList.enum`).  Each task's
envelope resources land in the slot for its position and the slots are read
back in input order after all tasks settle. -/
def generic_parallel_list_execution {α β : Type} (func : β → List α)
    (valueList : List β) (completionOrder : List (Nat × β)) : List α :=
  let buffer := completionOrder.map (fun iv => (iv.1, func iv.2))
  ((List.range valueList.length).filterMap (fun i => buffer.lookup i)).flatten

/-! ### Mock fetch functions of `src/tests/unit_tests/test_pagination.py` -/

/-- The test source `TEST_DATA = [i for i in range(100)]`. -/
def TEST_DATA : List Nat := List.range 100

/-- Embeds `mock_numerical_offset` / `mock_numerical_offset_parallel`:
resources are `data[offset : offset+limit]`, the next offset is always
`offset + limit`, and the total is `len(data)`. -/
def mock_numerical_offset {α : Type} (data : List α) (off limit : Nat) : NumEnvelope α :=
  { resources := (data.drop off).take limit
    errors := []
    offset := some (off + limit)
    total := data.length }

/-- The index expression `TOKENS.index(offset) if offset is not None else 0`: the position of the
current cursor in the token list (an absent cursor addresses position 0). -/
def tokIdx (tokens : List String) : Option String → Nat
  | none => 0
  | some c => tokens.indexOf c

/-- The next-cursor expression `TOKENS[offset_idx+limit] if offset_idx+limit < len(TOKENS) else ""`. -/
def nextToken (tokens : List String) (idx limit : Nat) : String :=
  if idx + limit < tokens.length then tokens.getD (idx + limit) "" else ""

/-- Embeds `mock_all_pages_token_offset`: the `offset`-named cursor dialect. -/
def mock_all_pages_token_offset {α : Type} (tokens : List String) (data : List α)
    (cur : Option String) (limit : Nat) : TokEnvelope α :=
  let idx := tokIdx tokens cur
  { resources := (data.drop idx).take limit
    errors := []
    offsetField := some (nextToken tokens idx limit)
    afterField := none
    total := data.length }

/-- Embeds `mock_all_pages_token_offset_after`: the `after`-named cursor
dialect over the same token list and data. -/
def mock_all_pages_token_offset_after {α : Type} (tokens : List String) (data : List α)
    (cur : Option String) (limit : Nat) : TokEnvelope α :=
  let idx := tokIdx tokens cur
  { resources := (data.drop idx).take limit
    errors := []
    offsetField := none
    afterField := some (nextToken tokens idx limit)
    total := data.length }

/-- Embeds `mock_func_for_generic_parallel_list_execution`: the envelope
resources are the single input value. -/
def mock_func_generic {α : Type} (param : α) : List α := [param]

/-! ### Serial pager over the numbered-offset mock -/

theorem serial_mock_run {α : Type} (data : List α) (limit : Nat) (hl : 1 ≤ limit) :
    ∀ (fuel off : Nat) (acc : List α), 1 ≤ fuel →
      data.length ≤ off + fuel * limit → acc.length = off →
      all_pages_numbered_offsetAux (mock_numerical_offset data) limit fuel off acc
        = some (.ok (acc ++ data.drop off)) := by
  intro fuel
  induction fuel with
  | zero => intro off acc hf _ _; omega
  | succ fuel ih =>
    intro off acc _ hbound hacc
    rw [all_pages_numbered_offsetAux]
    simp only [mock_numerical_offset, ne_eq, not_true_eq_false, if_false]
    have hlt : ((data.drop off).take limit).length = min limit (data.length - off) := by
      rw [List.length_take, List.length_drop]
    by_cases hterm : data.length ≤ (acc ++ (data.drop off).take limit).length
    · rw [if_pos hterm]
      have hrest : (data.drop off).length ≤ limit := by
        rw [List.length_append] at hterm
        rw [List.length_drop]
        omega
      rw [List.take_of_length_le hrest]
    · rw [if_neg hterm]
      rw [List.length_append, hacc, hlt] at hterm
      have hmul : (fuel + 1) * limit = fuel * limit + limit := by ring
      have hfuel1 : 1 ≤ fuel := by
        rcases Nat.eq_zero_or_pos fuel with h | h
        · subst h; omega
        · omega
      have hbound2 : data.length ≤ (off + limit) + fuel * limit := by omega
      have hacc2 : (acc ++ (data.drop off).take limit).length = off + limit := by
        rw [List.length_append, hacc, hlt]
        omega
      rw [ih (off + limit) _ hfuel1 hbound2 hacc2]
      rw [List.append_assoc]
      have hdd : data.drop (off + limit) = (data.drop off).drop limit := by
        rw [List.drop_drop]
      rw [hdd, List.take_append_drop]

/-! ### Reassembly of the parallel fan-out -/

theorem lookup_map_pair {γ : Type} (f : Nat → γ) :
    ∀ (l : List Nat) (k : Nat), k ∈ l →
      (l.map (fun o => (o, f o))).lookup k = some (f k) := by
  intro l
  induction l with
  | nil => intro k hk; cases hk
  | cons a t ih =>
    intro k hk
    by_cases h : k = a
    · subst h
      simp [List.lookup_cons]
    · rcases List.mem_cons.mp hk with h2 | h2
      · exact absurd h2 h
      · simp only [List.map_cons, List.lookup_cons]
        have hba : (k == a) = false := beq_eq_false_iff_ne.mpr h
        rw [hba]
        exact ih k h2

theorem filterMap_eq_map_of_some {γ : Type} (g : Nat → Option γ) (h : Nat → γ) :
    ∀ l : List Nat, (∀ x ∈ l, g x = some (h x)) → l.filterMap g = l.map h := by
  intro l
  induction l with
  | nil => intro; rfl
  | cons a t ih =>
    intro hall
    rw [List.filterMap_cons, hall a (List.mem_cons_self a t), List.map_cons,
      ih (fun x hx => hall x (List.mem_cons_of_mem a hx))]

theorem flatten_slices {α : Type} (data : List α) (limit : Nat) :
    ∀ (m s : Nat),
      ((List.range m).map (fun k => (data.drop ((k + s) * limit)).take limit)).flatten
        = (data.drop (s * limit)).take (m * limit) := by
  intro m
  induction m with
  | zero => intro s; simp
  | succ m ih =>
    intro s
    rw [List.range_succ_eq_map, List.map_cons, List.flatten_cons, List.map_map]
    have hmap : (List.range m).map
          ((fun k => (data.drop ((k + s) * limit)).take limit) ∘ Nat.succ)
        = (List.range m).map (fun k => (data.drop ((k + (s + 1)) * limit)).take limit) := by
      apply List.map_congr_left
      intro a _
      simp only [Function.comp_apply]
      have hsa : Nat.succ a + s = a + (s + 1) := by omega
      rw [hsa]
    rw [hmap, ih (s + 1)]
    have h1 : (0 + s) * limit = s * limit := by ring
    have h2 : (s + 1) * limit = s * limit + limit := by ring
    have h3 : (m + 1) * limit = limit + m * limit := by ring
    rw [h1, h2, h3, List.take_add]
    congr 1
    rw [List.drop_drop]

theorem numPages_pos (limit total : Nat) (hl : 1 ≤ limit) (ht : 1 ≤ total) :
    1 ≤ numPages limit total := by
  rw [numPages]
  rw [Nat.le_div_iff_mul_le (by omega)]
  omega

theorem numPages_mul_ge (limit total : Nat) (hl : 1 ≤ limit) :
    total ≤ numPages limit total * limit := by
  rw [numPages]
  have h1 := Nat.div_add_mod (total + limit - 1) limit
  have h2 := Nat.mod_lt (total + limit - 1) (show 0 < limit by omega)
  have h3 : limit * ((total + limit - 1) / limit) = ((total + limit - 1) / limit) * limit := by
    ring
  omega

theorem parallel_mock_run {α : Type} (data : List α) (limit : Nat) (hl : 1 ≤ limit)
    (order : List Nat) (hperm : order.Perm (fanOutOffsets limit data.length)) :
    all_pages_numbered_offset_parallel (mock_numerical_offset data) limit order
      = .ok data := by
  rw [all_pages_numbered_offset_parallel]
  have hperr : (mock_numerical_offset data (0 : Nat) limit).errors = [] := rfl
  have hptot : (mock_numerical_offset data (0 : Nat) limit).total = data.length := rfl
  have hpres : (mock_numerical_offset data (0 : Nat) limit).resources = data.take limit := by
    simp [mock_numerical_offset]
  simp only [hperr, hptot, hpres, ne_eq, not_true_eq_false, if_false]
  by_cases h0 : data.length = 0
  · rw [if_pos h0]
    rw [List.length_eq_zero.mp h0]
    simp
  · rw [if_neg h0]
    have hordered : (fanOutOffsets limit data.length).filterMap
          (fun off => (order.map (fun off => (off,
            mock_numerical_offset data off limit))).lookup off)
        = (fanOutOffsets limit data.length).map
            (fun off => mock_numerical_offset data off limit) := by
      apply filterMap_eq_map_of_some
      intro off hoff
      exact lookup_map_pair _ order off (hperm.mem_iff.mpr hoff)
    rw [hordered, List.map_map, List.map_map]
    have herrs : ((fanOutOffsets limit data.length).map
          (NumEnvelope.errors ∘ fun off => mock_numerical_offset data off limit)).flatten
        = [] := by
      have : (NumEnvelope.errors ∘ fun off => mock_numerical_offset data off limit)
          = fun _ => ([] : List String) := rfl
      rw [this]
      induction fanOutOffsets limit data.length with
      | nil => rfl
      | cons a t iht => rw [List.map_cons, List.flatten_cons, iht]; rfl
    rw [herrs]
    simp only [not_true_eq_false, if_false]
    have hres : ((fanOutOffsets limit data.length).map
          (NumEnvelope.resources ∘ fun off => mock_numerical_offset data off limit)).flatten
        = (data.drop limit).take ((numPages limit data.length - 1) * limit) := by
      rw [fanOutOffsets, List.map_map]
      have : ((NumEnvelope.resources ∘ fun off => mock_numerical_offset data off limit)
            ∘ fun k => (k + 1) * limit)
          = fun k => (data.drop ((k + 1) * limit)).take limit := rfl
      rw [this, flatten_slices data limit (numPages limit data.length - 1) 1,
        Nat.one_mul]
    rw [hres]
    have hback : data.take limit ++ (data.drop limit).take
          ((numPages limit data.length - 1) * limit)
        = data.take (limit + (numPages limit data.length - 1) * limit) := by
      rw [List.take_add]
    rw [hback]
    have hnp := numPages_pos limit data.length hl (by omega)
    have htot : limit + (numPages limit data.length - 1) * limit
        = numPages limit data.length * limit := by
      have h3 : numPages limit data.length = (numPages limit data.length - 1) + 1 := by
        omega
      calc limit + (numPages limit data.length - 1) * limit
          = ((numPages limit data.length - 1) + 1) * limit := by ring
        _ = numPages limit data.length * limit := by rw [h3.symm]
    rw [htot, List.take_of_length_le (numPages_mul_ge limit data.length hl)]

theorem fanOutOffsets_zero (limit : Nat) : fanOutOffsets limit 0 = [] := by
  rw [fanOutOffsets, numPages]
  rcases Nat.eq_zero_or_pos limit with h | h
  · subst h; rfl
  · have hdiv : (0 + limit - 1) / limit = 0 := Nat.div_eq_of_lt (by omega)
    rw [hdiv]
    rfl

/-- C2: for every source data set and every positive limit, the Parallel
Numbered-Offset Pager's output equals the Serial Numbered-Offset Pager's
output element-for-element — both produce exactly the source in ascending
offset order — for every completion order of the worker pool (any permutation
of the fan-out offsets), never depending on completion order. -/
theorem parallel_pager_matches_serial {α : Type} (data : List α) (limit : Nat)
    (hl : 1 ≤ limit) (order : List Nat)
    (hperm : order.Perm (fanOutOffsets limit data.length)) :
    all_pages_numbered_offset_parallel (mock_numerical_offset data) limit order
        = .ok data
      ∧ all_pages_numbered_offset (mock_numerical_offset data) limit (data.length + 1)
        = some (.ok data) := by
  refine ⟨parallel_mock_run data limit hl order hperm, ?_⟩
  rw [all_pages_numbered_offset]
  have hb : data.length ≤ 0 + (data.length + 1) * limit := by
    calc data.length ≤ (data.length + 1) * 1 := by omega
      _ ≤ (data.length + 1) * limit := Nat.mul_le_mul_left _ hl
      _ = 0 + (data.length + 1) * limit := by omega
  rw [serial_mock_run data limit hl (data.length + 1) 0 [] (by omega) hb rfl]
  rw [List.nil_append, List.drop_zero]

/-- Witness for C2: a 10-element source, limit 3, with the worker pool
finishing the fan-out pages out of order (offset 9 first). -/
theorem parallel_pager_matches_serial_witness :
    all_pages_numbered_offset_parallel (mock_numerical_offset (List.range 10)) 3 [9, 3, 6]
        = .ok (List.range 10)
      ∧ all_pages_numbered_offset (mock_numerical_offset (List.range 10)) 3 11
        = some (.ok (List.range 10)) :=
  parallel_pager_matches_serial (List.range 10) 3 (by decide) [9, 3, 6] (by decide)

/-- C8: when the probe call reports `total = 0`, the parallel pager returns
the (possibly empty) probe page immediately, for every conceivable completion
order — and the set of fan-out offsets that would be submitted is empty. -/
theorem parallel_zero_total_short_circuit {α : Type} (fetch : Nat → Nat → NumEnvelope α)
    (limit : Nat) (herr : (fetch 0 limit).errors = []) (h0 : (fetch 0 limit).total = 0) :
    (∀ completionOrder, all_pages_numbered_offset_parallel fetch limit completionOrder
        = .ok (fetch 0 limit).resources)
      ∧ fanOutOffsets limit (fetch 0 limit).total = [] := by
  constructor
  · intro order
    rw [all_pages_numbered_offset_parallel]
    simp [herr, h0]
  · rw [h0]
    exact fanOutOffsets_zero limit

/-- A fetch function whose every envelope is empty with `total = 0`. -/
def emptySourceFetch : Nat → Nat → NumEnvelope Nat :=
  fun _ _ => { resources := [], errors := [], offset := some 0, total := 0 }

/-- Witness for C8 at the empty source, limit 5, with a nonempty would-be
completion order. -/
theorem parallel_zero_total_short_circuit_witness :
    all_pages_numbered_offset_parallel emptySourceFetch 5 [7, 3]
        = .ok (emptySourceFetch 0 5).resources
      ∧ fanOutOffsets 5 (emptySourceFetch 0 5).total = [] :=
  ⟨(parallel_zero_total_short_circuit emptySourceFetch 5 rfl rfl).1 [7, 3],
    (parallel_zero_total_short_circuit emptySourceFetch 5 rfl rfl).2⟩

/-- C1: an envelope carrying top-level `errors` aborts the paging call as a
whole with a `RemoteQueryError` (`Except.error`) carrying the underlying error
descriptors, and no partial aggregate is returned: (1) the serial pager
reaching such an envelope discards whatever it had accumulated and fails with
exactly that envelope's error list; (2) a failing probe fails the parallel
call the same way; (3) a failing fan-out task makes the parallel call fail
with an aggregate containing every descriptor of that task's envelope. -/
theorem envelope_errors_abort_paging {α : Type} :
    (∀ (fetch : Nat → Nat → NumEnvelope α) (limit fuel off : Nat) (acc : List α),
        (fetch off limit).errors ≠ [] →
        all_pages_numbered_offsetAux fetch limit (fuel + 1) off acc
          = some (.error (fetch off limit).errors))
      ∧ (∀ (fetch : Nat → Nat → NumEnvelope α) (limit : Nat) (order : List Nat),
        (fetch 0 limit).errors ≠ [] →
        all_pages_numbered_offset_parallel fetch limit order
          = .error (fetch 0 limit).errors)
      ∧ (∀ (fetch : Nat → Nat → NumEnvelope α) (limit : Nat) (order : List Nat) (off : Nat),
        order.Perm (fanOutOffsets limit (fetch 0 limit).total) →
        (fetch 0 limit).errors = [] →
        off ∈ fanOutOffsets limit (fetch 0 limit).total →
        (fetch off limit).errors ≠ [] →
        ∃ es, all_pages_numbered_offset_parallel fetch limit order = .error es
          ∧ ∀ e ∈ (fetch off limit).errors, e ∈ es) := by
  refine ⟨?_, ?_, ?_⟩
  · intro fetch limit fuel off acc herr
    rw [all_pages_numbered_offsetAux]
    simp only [if_pos herr]
  · intro fetch limit order herr
    rw [all_pages_numbered_offset_parallel]
    simp only [if_pos herr]
  · intro fetch limit order off hperm herr0 hoff herr
    rw [all_pages_numbered_offset_parallel]
    simp only [herr0, ne_eq, not_true_eq_false, if_false]
    have htot : (fetch 0 limit).total ≠ 0 := by
      intro h0
      rw [h0, fanOutOffsets_zero] at hoff
      cases hoff
    rw [if_neg htot]
    have hordered : (fanOutOffsets limit (fetch 0 limit).total).filterMap
          (fun o => (order.map (fun o => (o, fetch o limit))).lookup o)
        = (fanOutOffsets limit (fetch 0 limit).total).map (fun o => fetch o limit) := by
      apply filterMap_eq_map_of_some
      intro o ho
      exact lookup_map_pair _ order o (hperm.mem_iff.mpr ho)
    rw [hordered, List.map_map]
    obtain ⟨e0, he0⟩ := List.exists_mem_of_ne_nil _ herr
    have hmem : ∀ e ∈ (fetch off limit).errors,
        e ∈ ((fanOutOffsets limit (fetch 0 limit).total).map
          (NumEnvelope.errors ∘ fun o => fetch o limit)).flatten := by
      intro e he
      rw [List.mem_flatten]
      exact ⟨(fetch off limit).errors, List.mem_map.mpr ⟨off, hoff, rfl⟩, he⟩
    rw [if_pos (List.ne_nil_of_mem (hmem e0 he0))]
    exact ⟨_, rfl, hmem⟩

/-! ### Token pager over the token mocks -/

theorem token_mock_run {α : Type} (tokens : List String) (data : List α)
    (fetch : Option String → Nat → TokEnvelope α) (limit : Nat) (d : Bool)
    (herr : ∀ cur, (fetch cur limit).errors = [])
    (hres : ∀ cur, (fetch cur limit).resources = (data.drop (tokIdx tokens cur)).take limit)
    (hcur : ∀ cur, cursorOf d (fetch cur limit)
        = some (nextToken tokens (tokIdx tokens cur) limit))
    (hl : 1 ≤ limit) (hnd : tokens.Nodup) (hne : "" ∉ tokens)
    (hlen : tokens.length = data.length) :
    ∀ (fuel : Nat) (cur : Option String) (acc : List α), 1 ≤ fuel →
      data.length ≤ tokIdx tokens cur + fuel * limit →
      all_pages_token_offsetAux fetch limit d fuel cur acc
        = some (.ok (acc ++ data.drop (tokIdx tokens cur))) := by
  intro fuel
  induction fuel with
  | zero => intro cur acc hf _; omega
  | succ fuel ih =>
    intro cur acc _ hbound
    rw [all_pages_token_offsetAux]
    simp only [herr, hres, hcur, ne_eq, not_true_eq_false, if_false]
    by_cases hfin : tokIdx tokens cur + limit < tokens.length
    · have hget : tokens.getD (tokIdx tokens cur + limit) ""
          = tokens.get ⟨tokIdx tokens cur + limit, hfin⟩ := by
        rw [List.getD_eq_getElem tokens "" hfin]
        rfl
      have hnt : nextToken tokens (tokIdx tokens cur) limit
          = tokens.get ⟨tokIdx tokens cur + limit, hfin⟩ := by
        rw [nextToken, if_pos hfin, hget]
      have hneq : ¬ nextToken tokens (tokIdx tokens cur) limit = "" := by
        rw [hnt]
        intro h
        exact hne (h ▸ List.get_mem tokens _ _)
      rw [if_neg hneq]
      have hidx2 : tokIdx tokens (some (nextToken tokens (tokIdx tokens cur) limit))
          = tokIdx tokens cur + limit := by
        rw [tokIdx, hnt]
        exact List.get_indexOf hnd _
      have hmul : (fuel + 1) * limit = fuel * limit + limit := by ring
      have hfuel1 : 1 ≤ fuel := by
        rcases Nat.eq_zero_or_pos fuel with h | h
        · subst h; omega
        · omega
      rw [ih (some (nextToken tokens (tokIdx tokens cur) limit)) _ hfuel1 (by omega)]
      rw [hidx2, List.append_assoc]
      have hdd : data.drop (tokIdx tokens cur + limit)
          = (data.drop (tokIdx tokens cur)).drop limit := by
        rw [List.drop_drop]
      rw [hdd, List.take_append_drop]
    · have hnt : nextToken tokens (tokIdx tokens cur) limit = "" := by
        rw [nextToken, if_neg hfin]
      rw [if_pos hnt]
      have hrest : (data.drop (tokIdx tokens cur)).length ≤ limit := by
        rw [List.length_drop]
        omega
      rw [List.take_of_length_le hrest]

/-- Both cursor dialects of the token mock walk the full source: the
`offset`-named mock driven with `offset_key_named_after = False` and the
`after`-named mock driven with `offset_key_named_after = True` each return the
complete data set. -/
theorem token_mock_dialects_run {α : Type} (tokens : List String) (data : List α)
    (limit : Nat) (hl : 1 ≤ limit) (hnd : tokens.Nodup) (hne : "" ∉ tokens)
    (hlen : tokens.length = data.length) :
    all_pages_token_offset (mock_all_pages_token_offset tokens data) limit false
        (data.length + 1) = some (.ok data)
      ∧ all_pages_token_offset (mock_all_pages_token_offset_after tokens data) limit true
        (data.length + 1) = some (.ok data) := by
  have hbound : data.length ≤ tokIdx tokens none + (data.length + 1) * limit := by
    have : data.length + 1 ≤ (data.length + 1) * limit := by
      calc data.length + 1 = (data.length + 1) * 1 := by ring
        _ ≤ (data.length + 1) * limit := Nat.mul_le_mul_left _ hl
    omega
  constructor
  · rw [all_pages_token_offset]
    rw [token_mock_run tokens data (mock_all_pages_token_offset tokens data) limit false
      (fun _ => rfl) (fun _ => rfl) (fun _ => rfl) hl hnd hne hlen
      (data.length + 1) none [] (by omega) hbound]
    rw [tokIdx, List.drop_zero, List.nil_append]
  · rw [all_pages_token_offset]
    rw [token_mock_run tokens data (mock_all_pages_token_offset_after tokens data) limit true
      (fun _ => rfl) (fun _ => rfl) (fun _ => rfl) hl hnd hne hlen
      (data.length + 1) none [] (by omega) hbound]
    rw [tokIdx, List.drop_zero, List.nil_append]

/-- C6: the Token/Cursor-Offset Pager terminates exactly when the cursor
returned in the envelope's pagination metadata is empty or absent — (1) an
absent or empty cursor makes the pager return right after that call, (2) a
nonempty cursor makes it continue with that cursor — and (3) for equivalent
source data the `offset`-named and the `after`-named dialects produce
identical aggregate results (both the full source). -/
theorem token_pager_cursor_termination {α : Type} :
    (∀ (fetch : Option String → Nat → TokEnvelope α) (limit : Nat) (named : Bool)
        (fuel : Nat) (cur : Option String) (acc : List α),
        (fetch cur limit).errors = [] →
        (cursorOf named (fetch cur limit) = none
          ∨ cursorOf named (fetch cur limit) = some "") →
        all_pages_token_offsetAux fetch limit named (fuel + 1) cur acc
          = some (.ok (acc ++ (fetch cur limit).resources)))
      ∧ (∀ (fetch : Option String → Nat → TokEnvelope α) (limit : Nat) (named : Bool)
        (fuel : Nat) (cur : Option String) (acc : List α) (c : String),
        (fetch cur limit).errors = [] →
        cursorOf named (fetch cur limit) = some c → c ≠ "" →
        all_pages_token_offsetAux fetch limit named (fuel + 1) cur acc
          = all_pages_token_offsetAux fetch limit named fuel (some c)
              (acc ++ (fetch cur limit).resources))
      ∧ (∀ (tokens : List String) (data : List α) (limit : Nat),
        1 ≤ limit → tokens.Nodup → "" ∉ tokens → tokens.length = data.length →
        all_pages_token_offset (mock_all_pages_token_offset tokens data) limit false
            (data.length + 1) = some (.ok data)
          ∧ all_pages_token_offset (mock_all_pages_token_offset_after tokens data) limit true
            (data.length + 1) = some (.ok data)) := by
  refine ⟨?_, ?_, ?_⟩
  · intro fetch limit named fuel cur acc herr hcur
    rw [all_pages_token_offsetAux]
    simp only [herr, ne_eq, not_true_eq_false, if_false]
    rcases hcur with hc | hc
    · simp only [hc]
    · simp [hc]
  · intro fetch limit named fuel cur acc c herr hc hcne
    rw [all_pages_token_offsetAux]
    simp only [herr, hc, ne_eq, not_true_eq_false, if_false, if_neg hcne]
  · intro tokens data limit hl hnd hne hlen
    exact token_mock_dialects_run tokens data limit hl hnd hne hlen

/-- A token fetch whose every envelope reports the empty cursor. -/
def tinyTokFetchEnd : Option String → Nat → TokEnvelope Nat :=
  fun _ _ =>
    { resources := [3], errors := [], offsetField := some "", afterField := none, total := 1 }

/-- A token fetch whose every envelope reports the nonempty cursor "t1". -/
def tinyTokFetchNext : Option String → Nat → TokEnvelope Nat :=
  fun _ _ =>
    { resources := [4], errors := [], offsetField := some "t1", afterField := none, total := 2 }

/-- Witness for C6: the three conjuncts at concrete fetch functions, tokens
and data. -/
theorem token_pager_cursor_termination_witness :
    all_pages_token_offsetAux tinyTokFetchEnd 7 false 1 none [5]
        = some (.ok [5, 3])
      ∧ all_pages_token_offsetAux tinyTokFetchNext 7 false 1 none []
        = all_pages_token_offsetAux tinyTokFetchNext 7 false 0 (some "t1") [4]
      ∧ (all_pages_token_offset (mock_all_pages_token_offset ["a", "b", "c"] [10, 20, 30])
            2 false 4 = some (.ok [10, 20, 30])
        ∧ all_pages_token_offset
            (mock_all_pages_token_offset_after ["a", "b", "c"] [10, 20, 30])
            2 true 4 = some (.ok [10, 20, 30])) :=
  ⟨token_pager_cursor_termination.1 tinyTokFetchEnd 7 false 0 none [5] rfl (Or.inr rfl),
    token_pager_cursor_termination.2.1 tinyTokFetchNext 7 false 0 none [] "t1" rfl rfl
      (by decide),
    token_pager_cursor_termination.2.2 ["a", "b", "c"] [10, 20, 30] 2 (by decide)
      (by decide) (by decide) (by decide)⟩

/-! ### The pagination-metadata invariant (C7) -/

/-- C7 counterexample: on the final page of the numbered-offset mock — the
probe of a 100-element source at offset 90 with limit 10 collects the last 10
resources, reaching the reported total — the `offset` metadata field is still
present as `some 100`, not absent or empty as the claimed invariant requires
of a final page. -/
theorem numbered_offset_present_on_final_page :
    (mock_numerical_offset (List.range 100) 90 10).total
        ≤ 90 + (mock_numerical_offset (List.range 100) 90 10).resources.length
      ∧ (mock_numerical_offset (List.range 100) 90 10).offset = some 100
      ∧ (mock_numerical_offset (List.range 100) 90 10).offset ≠ none := by
  refine ⟨by decide, by decide, by decide⟩

theorem nextToken_eq_empty_iff (tokens : List String) (idx limit : Nat)
    (hne : "" ∉ tokens) :
    nextToken tokens idx limit = "" ↔ tokens.length ≤ idx + limit := by
  constructor
  · intro h
    by_contra hlt
    have hfin : idx + limit < tokens.length := by omega
    rw [nextToken, if_pos hfin, List.getD_eq_getElem tokens "" hfin] at h
    exact hne (h ▸ List.getElem_mem hfin)
  · intro h
    rw [nextToken, if_neg (by omega)]

/-- C7 amended: in every envelope of one logical query the reported `total`
is stable (always the source length) for all three mock dialects, and the
token form's cursor is empty exactly on the final page; but the numbered
form's next-offset field is always present — it equals `offset + limit` even
on the final page — so final-page detection for the numbered form rests on
the cumulative count reaching `total`, not on offset absence. -/
theorem pagination_metadata_invariant_amended {α : Type} (data : List α)
    (tokens : List String) (hne : "" ∉ tokens) (hlen : tokens.length = data.length) :
    (∀ off limit, (mock_numerical_offset data off limit).total = data.length)
      ∧ (∀ cur limit, (mock_all_pages_token_offset tokens data cur limit).total
          = data.length)
      ∧ (∀ cur limit, (mock_all_pages_token_offset_after tokens data cur limit).total
          = data.length)
      ∧ (∀ off limit, (mock_numerical_offset data off limit).offset = some (off + limit))
      ∧ (∀ cur limit, cursorOf false (mock_all_pages_token_offset tokens data cur limit)
            = some "" ↔ data.length ≤ tokIdx tokens cur + limit)
      ∧ (∀ cur limit, cursorOf true (mock_all_pages_token_offset_after tokens data cur limit)
            = some "" ↔ data.length ≤ tokIdx tokens cur + limit) := by
  refine ⟨fun _ _ => rfl, fun _ _ => rfl, fun _ _ => rfl, fun _ _ => rfl, ?_, ?_⟩
  · intro cur limit
    show some (nextToken tokens (tokIdx tokens cur) limit) = some "" ↔ _
    rw [Option.some_inj, nextToken_eq_empty_iff tokens _ limit hne, hlen]
  · intro cur limit
    show some (nextToken tokens (tokIdx tokens cur) limit) = some "" ↔ _
    rw [Option.some_inj, nextToken_eq_empty_iff tokens _ limit hne, hlen]

/-- Witness for the amended C7 statement over two tokens and two resources. -/
theorem pagination_metadata_invariant_amended_witness :
    (mock_numerical_offset [1, 2] 5 2).total = 2
      ∧ (mock_all_pages_token_offset ["a", "b"] [1, 2] none 2).total = 2
      ∧ (mock_all_pages_token_offset_after ["a", "b"] [1, 2] (some "b") 2).total = 2
      ∧ (mock_numerical_offset [1, 2] 5 2).offset = some 7
      ∧ (cursorOf false (mock_all_pages_token_offset ["a", "b"] [1, 2] none 2)
          = some "" ↔ 2 ≤ 0 + 2)
      ∧ (cursorOf true (mock_all_pages_token_offset_after ["a", "b"] [1, 2] none 2)
          = some "" ↔ 2 ≤ 0 + 2) := by
  have h := pagination_metadata_invariant_amended [1, 2] ["a", "b"] (by decide) (by decide)
  exact ⟨h.1 5 2, h.2.1 none 2, h.2.2.1 (some "b") 2, h.2.2.2.1 5 2,
    h.2.2.2.2.1 none 2, h.2.2.2.2.2 none 2⟩

/-! ### Completeness of all four algorithms on the 100-element test source -/

/-- The cursor list `TOKENS`: one distinct non-empty cursor string per source element (the
test uses 100 random uuid hex strings; only their distinctness and
non-emptiness are relevant, so we use 100 distinct one-character strings). -/
def TOKENS : List String := (List.range 100).map (fun n => String.mk [Char.ofNat (65 + n)])

theorem lookup_buffer {β γ : Type} (values : List β) (f : β → γ) :
    ∀ (order : List (Nat × β)) (i : Nat) (v : β),
      (∀ p ∈ order, values[p.1]? = some p.2) →
      i ∈ order.map Prod.fst → values[i]? = some v →
      (order.map (fun iv => (iv.1, f iv.2))).lookup i = some (f v) := by
  intro order
  induction order with
  | nil => intro i v _ hmem _; cases hmem
  | cons a t ih =>
    intro i v hsound hmem hv
    simp only [List.map_cons, List.lookup_cons]
    by_cases h : i = a.1
    · subst h
      rw [beq_self_eq_true]
      have h1 := hsound a (List.mem_cons_self a t)
      have hva : v = a.2 := Option.some_inj.mp (hv.symm.trans h1)
      rw [hva]
    · have hba : (i == a.1) = false := beq_eq_false_iff_ne.mpr h
      rw [hba]
      have hmem2 : i ∈ t.map Prod.fst := by
        simp only [List.map_cons, List.mem_cons] at hmem
        rcases hmem with h2 | h2
        · exact absurd h2 h
        · exact h2
      exact ih i v (fun p hp => hsound p (List.mem_cons_of_mem a hp)) hmem2 hv

theorem executor_flatten_slots {β : Type} :
    ∀ values : List β,
      ((List.range values.length).map
        (fun i => (values[i]?).elim [] (fun v => [v]))).flatten = values := by
  intro values
  induction values with
  | nil => rfl
  | cons v vs ih =>
    rw [List.length_cons, List.range_succ_eq_map, List.map_cons, List.flatten_cons,
      List.map_map]
    have hmap : (List.range vs.length).map
          ((fun i => ((v :: vs)[i]?).elim [] (fun x => [x])) ∘ Nat.succ)
        = (List.range vs.length).map (fun i => (vs[i]?).elim [] (fun x => [x])) := by
      apply List.map_congr_left
      intro a _
      simp only [Function.comp_apply, Nat.succ_eq_add_one, List.getElem?_cons_succ]
    rw [hmap, ih, List.getElem?_cons_zero]
    rfl

/-- The generic parallel list executor over the identity-like test mock
(`{resources: [param]}`) returns exactly the input values in input order, for
every completion order of the worker pool. -/
theorem executor_mock_run {β : Type} (values : List β) (order : List (Nat × β))
    (hperm : order.Perm values.enum) :
    generic_parallel_list_execution mock_func_generic values order = values := by
  rw [generic_parallel_list_execution]
  have hsound : ∀ p ∈ order, values[p.1]? = some p.2 := by
    intro p hp
    exact List.mem_enum_iff_getElem?.mp (hperm.mem_iff.mp hp)
  have hkeys : ∀ i, i ∈ List.range values.length → i ∈ order.map Prod.fst := by
    intro i hi
    have h1 : (order.map Prod.fst).Perm (values.enum.map Prod.fst) := hperm.map _
    rw [List.enum_map_fst] at h1
    exact h1.mem_iff.mpr hi
  have hfm : (List.range values.length).filterMap
        (fun i => (order.map (fun iv => (iv.1, mock_func_generic iv.2))).lookup i)
      = (List.range values.length).map (fun i => (values[i]?).elim [] (fun v => [v])) := by
    apply filterMap_eq_map_of_some
    intro i hi
    have hilen : i < values.length := List.mem_range.mp hi
    obtain ⟨v, hv⟩ : ∃ v, values[i]? = some v :=
      ⟨values.get ⟨i, hilen⟩, List.getElem?_eq_getElem hilen⟩
    rw [lookup_buffer values mock_func_generic order i v hsound (hkeys i hi) hv, hv]
    rfl
  rw [hfm, executor_flatten_slots]

/-- All four algorithms walk the full 100-element test source at one given
limit: the serial pager, the parallel pager with its fan-out pages completed
in reverse order, and both token dialects each return exactly the source. -/
theorem complete_at_limit (limit : Nat) (hl : 1 ≤ limit) :
    all_pages_numbered_offset (mock_numerical_offset TEST_DATA) limit 101
        = some (.ok TEST_DATA)
      ∧ all_pages_numbered_offset_parallel (mock_numerical_offset TEST_DATA) limit
          (fanOutOffsets limit 100).reverse = .ok TEST_DATA
      ∧ all_pages_token_offset (mock_all_pages_token_offset TOKENS TEST_DATA) limit false 101
        = some (.ok TEST_DATA)
      ∧ all_pages_token_offset (mock_all_pages_token_offset_after TOKENS TEST_DATA) limit
          true 101 = some (.ok TEST_DATA) := by
  have htok : TOKENS.Nodup := by decide
  have htne : "" ∉ TOKENS := by decide
  have htlen : TOKENS.length = TEST_DATA.length := by decide
  have h100 : TEST_DATA.length = 100 := rfl
  have hb : TEST_DATA.length ≤ 0 + 101 * limit := by
    rw [h100]
    calc (100 : Nat) ≤ 101 * 1 := by omega
      _ ≤ 101 * limit := Nat.mul_le_mul_left _ hl
      _ = 0 + 101 * limit := by omega
  refine ⟨?_, ?_, ?_, ?_⟩
  · rw [all_pages_numbered_offset,
      serial_mock_run TEST_DATA limit hl 101 0 [] (by omega) hb rfl,
      List.nil_append, List.drop_zero]
  · have hperm : (fanOutOffsets limit 100).reverse.Perm
        (fanOutOffsets limit TEST_DATA.length) := by
      rw [h100]
      exact List.reverse_perm _
    exact parallel_mock_run TEST_DATA limit hl _ hperm
  · exact (token_mock_dialects_run TOKENS TEST_DATA limit hl htok htne htlen).1
  · exact (token_mock_dialects_run TOKENS TEST_DATA limit hl htok htne htlen).2

/-- C3: for the 100-element test source and every limit in {1, 3, 5, 6, 10}
(including limits that do not divide 100), the serial numbered-offset pager,
the parallel numbered-offset pager (even with the pool completing its pages
in reverse order), and both token-pager dialects return exactly the full
source in order — no gaps, no duplicates — and the generic parallel list
executor returns exactly one output per input value in input order, even when
the pool completes the tasks in reverse. -/
theorem all_algorithms_complete_coverage :
    (∀ limit ∈ [1, 3, 5, 6, 10],
        all_pages_numbered_offset (mock_numerical_offset TEST_DATA) limit 101
            = some (.ok TEST_DATA)
          ∧ all_pages_numbered_offset_parallel (mock_numerical_offset TEST_DATA) limit
              (fanOutOffsets limit 100).reverse = .ok TEST_DATA
          ∧ all_pages_token_offset (mock_all_pages_token_offset TOKENS TEST_DATA) limit
              false 101 = some (.ok TEST_DATA)
          ∧ all_pages_token_offset (mock_all_pages_token_offset_after TOKENS TEST_DATA) limit
              true 101 = some (.ok TEST_DATA))
      ∧ generic_parallel_list_execution mock_func_generic TEST_DATA TEST_DATA.enum.reverse
          = TEST_DATA := by
  constructor
  · intro limit hlimit
    fin_cases hlimit
    · exact complete_at_limit 1 (by omega)
    · exact complete_at_limit 3 (by omega)
    · exact complete_at_limit 5 (by omega)
    · exact complete_at_limit 6 (by omega)
    · exact complete_at_limit 10 (by omega)
  · exact executor_mock_run TEST_DATA TEST_DATA.enum.reverse (List.reverse_perm _)

/-- Witness instantiation for C3 at limit 5 (a non-divisor witness, limit 3,
would work equally; 5 is picked arbitrarily from the tested set). -/
theorem all_algorithms_complete_coverage_witness :
    (all_pages_numbered_offset (mock_numerical_offset TEST_DATA) 5 101
          = some (.ok TEST_DATA)
        ∧ all_pages_numbered_offset_parallel (mock_numerical_offset TEST_DATA) 5
            (fanOutOffsets 5 100).reverse = .ok TEST_DATA
        ∧ all_pages_token_offset (mock_all_pages_token_offset TOKENS TEST_DATA) 5 false 101
          = some (.ok TEST_DATA)
        ∧ all_pages_token_offset (mock_all_pages_token_offset_after TOKENS TEST_DATA) 5 true 101
          = some (.ok TEST_DATA))
      ∧ generic_parallel_list_execution mock_func_generic TEST_DATA TEST_DATA.enum.reverse
        = TEST_DATA :=
  ⟨all_algorithms_complete_coverage.1 5 (by decide), all_algorithms_complete_coverage.2⟩

/-- A fetch function that always fails with one envelope error. -/
def failingFetch : Nat → Nat → NumEnvelope Nat :=
  fun _ _ => { resources := [], errors := ["e1"], offset := none, total := 3 }

/-- A fetch function whose probe page succeeds but whose single fan-out task
(offset 5 of 10 at limit 5) reports an envelope error. -/
def probeOkTaskFailFetch : Nat → Nat → NumEnvelope Nat :=
  fun off _ =>
    if off = 0 then { resources := [1], errors := [], offset := some 5, total := 10 }
    else { resources := [], errors := ["boom"], offset := some 10, total := 10 }

/-- Witness for C1: all three conjuncts at concrete fetch functions. -/
theorem envelope_errors_abort_paging_witness :
    all_pages_numbered_offsetAux failingFetch 2 1 0 [41, 42]
        = some (.error ["e1"])
      ∧ all_pages_numbered_offset_parallel failingFetch 2 [1]
        = .error ["e1"]
      ∧ (∃ es, all_pages_numbered_offset_parallel probeOkTaskFailFetch 5 [5] = .error es
          ∧ ∀ e ∈ (probeOkTaskFailFetch 5 5).errors, e ∈ es) :=
  ⟨(envelope_errors_abort_paging.1) failingFetch 2 0 0 [41, 42] (by decide),
    (envelope_errors_abort_paging.2.1) failingFetch 2 [1] (by decide),
    (envelope_errors_abort_paging.2.2) probeOkTaskFailFetch 5 [5] 5 (by decide)
      (by decide) (by decide) (by decide)⟩

end Caracara
